import Mathlib

/-!
# A typed JSON request dispatcher (`main.cpp`)

Shallow embedding of `main.cpp`: the type-directed parameter codec
(`get_param_example`, `parse_json_param`), the tuple builder
(`parse_params_to_tuple`), `invoke_func_by_json`, the class template
`json_request_impl<Args...>` with its three constructors, `execute`, `help`,
and the example request `test_request`.

The program's only global, `int global_y`, is threaded explicitly through every
operation that can read or write it.

The JSON library (`Json::Value` of jsoncpp) is not part of the repository; the
operations the program calls are modelled after the library's behaviour.
-/

set_option autoImplicit false

namespace Json

/-- Payload of a `Json::Value` of kind `realValue`, a C++ `double`: a finite
double is the rational number it denotes; the remaining doubles are the two
infinities and NaN. -/
inductive Real where
  | finite (q : ℚ)
  | pos_inf
  | neg_inf
  | nan

/-- The tagged union `Json::Value`, one constructor per `Json::ValueType`.

* `intValue` carries jsoncpp's `LargestInt`, `uintValue` its `LargestUInt`.
* `arrayValue` carries the elements at indices `0 .. size()-1`.
* `objectValue` carries the members as an association list with pairwise
  distinct keys; jsoncpp keeps them in a `std::map`, and none of the
  operations used by the program observes the order of the members. -/
inductive Value where
  | nullValue
  | intValue (i : Int)
  | uintValue (u : Nat)
  | realValue (r : Real)
  | stringValue (s : String)
  | booleanValue (b : Bool)
  | arrayValue (elems : List Value)
  | objectValue (members : List (String × Value))

/-- The constant `Json::Value::minInt`, the least value of the 32-bit `Json::Int`. -/
def minInt : Int := -2147483648

/-- The constant `Json::Value::maxInt`, the greatest value of the 32-bit `Json::Int`. -/
def maxInt : Int := 2147483647

namespace Value

/-- The method `Json::Value::isArray`. -/
def isArray : Value → Bool
  | arrayValue _ => true
  | _ => false

/-- The method `Json::Value::isObject`. -/
def isObject : Value → Bool
  | objectValue _ => true
  | _ => false

/-- The method `Json::Value::size`: the number of elements of an array, the number of
members of an object, and `0` for every other kind of value. -/
def size : Value → Nat
  | arrayValue elems => elems.length
  | objectValue members => members.length
  | _ => 0

/-- The method `Json::Value::operator[](ArrayIndex) const`: the element at `index`, or
null when the array has no such element. (jsoncpp asserts that the value is an
array or null; the program only indexes arrays.) -/
def index : Value → Nat → Value
  | arrayValue elems, i => elems.getD i nullValue
  | _, _ => nullValue

/-- Search of a member list for a key (`Json::Value::find`). -/
def find : List (String × Value) → String → Option Value
  | [], _ => none
  | (k, v) :: rest, key => if k = key then some v else find rest key

/-- The method `Json::Value::isMember`: whether the object has a member named `key`.
(jsoncpp asserts that the value is an object or null.) -/
def isMember : Value → String → Bool
  | objectValue members, key => (find members key).isSome
  | _, _ => false

/-- The method `Json::Value::operator[](const String&) const`: the member named `key`, or
null when there is none. (jsoncpp asserts that the value is an object or
null.) -/
def get : Value → String → Value
  | objectValue members, key => (find members key).getD nullValue
  | _, _ => nullValue

/-- Assignment to a member of a member list: the member named `key` is
replaced where it stands, or added when there is none. -/
def assign : List (String × Value) → String → Value → List (String × Value)
  | [], key, v => [(key, v)]
  | (k, w) :: rest, key, v =>
      if k = key then (k, v) :: rest else (k, w) :: assign rest key v

/-- The statement `value[key] = v` through the non-const
`Json::Value::operator[](const String&)`: a null value first becomes an empty
object. (jsoncpp asserts that the value is an object or null; the program only
assigns into such values, and the model leaves any other value as it is.) -/
def set : Value → String → Value → Value
  | objectValue members, key, v => objectValue (assign members key v)
  | nullValue, key, v => objectValue [(key, v)]
  | other, _, _ => other

/-- The method `Json::Value::append`: the value is added after the last element. (jsoncpp
asserts that the value is an array or null; the program only appends to an
array, and the model leaves any other value as it is.) -/
def append : Value → Value → Value
  | arrayValue elems, v => arrayValue (elems ++ [v])
  | nullValue, v => arrayValue [v]
  | other, _ => other

/-- jsoncpp's `IsIntegral(double)`: `modf` leaves no fractional part. -/
def IsIntegral : Real → Bool
  | Real.finite q => decide (q.den = 1)
  | Real.pos_inf => true
  | Real.neg_inf => true
  | Real.nan => false

/-- jsoncpp's `InRange(d, min, max)` for a double: `d >= min && d <= max`.
Every comparison with NaN is false. -/
def InRange : Real → Int → Int → Bool
  | Real.finite q, lo, hi => decide ((lo : ℚ) ≤ q) && decide (q ≤ (hi : ℚ))
  | Real.pos_inf, _, _ => false
  | Real.neg_inf, _, _ => false
  | Real.nan, _, _ => false

/-- The method `Json::Value::isInt`. -/
def isInt : Value → Bool
  | intValue i => decide (minInt ≤ i) && decide (i ≤ maxInt)
  | uintValue u => decide ((u : Int) ≤ maxInt)
  | realValue r => InRange r minInt maxInt && IsIntegral r
  | _ => false

end Value

end Json

open Json (Value)
open Json.Value (nullValue intValue uintValue realValue stringValue booleanValue
  arrayValue objectValue)

/-- The exceptions of the program: the two standard classes thrown by
`main.cpp`, the `Json::LogicError` of a failed jsoncpp assertion, and a marker
for an execution whose behaviour C++ leaves undefined (integer division by
zero, signed overflow). -/
inductive Exn where
  | invalid_argument (what : String)
  | runtime_error (what : String)
  | logic_error (what : String)
  | undefined_behaviour
  deriving DecidableEq

/-- The method `Json::Value::asInt`: conversion to the 32-bit `Json::Int`. A real is
truncated toward zero. -/
def Json.Value.asInt : Value → Except Exn Int
  | intValue i =>
      if (intValue i).isInt then pure i
      else throw (Exn.logic_error "LargestInt out of Int range")
  | uintValue u =>
      if (uintValue u).isInt then pure (u : Int)
      else throw (Exn.logic_error "LargestUInt out of Int range")
  | realValue r =>
      if Json.Value.InRange r Json.minInt Json.maxInt then
        match r with
        | Json.Real.finite q => pure (Int.tdiv q.num q.den)
        | _ => throw (Exn.logic_error "double out of Int range")
      else throw (Exn.logic_error "double out of Int range")
  | nullValue => pure 0
  | booleanValue b => pure (if b then 1 else 0)
  | _ => throw (Exn.logic_error "Value is not convertible to Int.")

/-! ## The parameter codec -/

/-- The parameter types for which `main.cpp` specialises `get_param_example`
and `parse_json_param`: `int` and `int &`. A callable with a parameter of any
other type does not compile. -/
inductive ParamType where
  | int
  | int_ref
  deriving DecidableEq

/-- The function template `get_param_example<T>`, both specialisations. -/
def get_param_example : ParamType → String
  | ParamType.int => "integer"
  | ParamType.int_ref => "integer reference"

/-- What `parse_json_param<T>` returns: an `int` by value, or (for `int &`) a
reference to the global `global_y`. -/
inductive Native where
  | value (n : Int)
  | global_y_ref
  deriving DecidableEq

/-- The function template `parse_json_param<T>`, both specialisations. -/
def parse_json_param : ParamType → Value → Except Exn Native
  | ParamType.int, param =>
      if !param.isInt then
        throw (Exn.invalid_argument "Expected integer parameter")
      else
        match param.asInt with
        | Except.ok n => pure (Native.value n)
        | Except.error e => throw e
  | ParamType.int_ref, _ => pure Native.global_y_ref

/-- The element `std::make_tuple` stores for a decoded parameter:
`std::make_tuple` decays its arguments, so a reference to `global_y` is stored
as a copy of the value `global_y` holds at that moment. -/
def Native.decay (global_y : Int) : Native → Int
  | Native.value n => n
  | Native.global_y_ref => global_y

/-- The tuple type `std::tuple<int, ..., int>` that `std::make_tuple` builds for
the parameter pack `Args`: one `int` per parameter, whether the parameter is
declared `int` or `int &`. -/
def Tuple : List ParamType → Type
  | [] => Unit
  | _ :: Args => Int × Tuple Args

/-- The element of a tuple at a position (`std::get<I>`), `0` past the end. -/
def Tuple.nth : {Args : List ParamType} → Tuple Args → Nat → Int
  | [], _, _ => 0
  | _ :: _, (a, _), 0 => a
  | _ :: _, (_, rest), i + 1 => Tuple.nth rest i

/-- The function `parse_params_to_tuple_impl<Args...>`, from index `Is` on: element `Is` of
`params` is decoded with the type of the first remaining parameter, and so on.
C++ leaves the order in which the arguments of `std::make_tuple` are evaluated
open; the model decodes left to right. No decoder has a side effect and every
failing decoder throws the same exception, so the order cannot be observed. -/
def parse_params_to_tuple_impl :
    (Args : List ParamType) → Nat → Value → Int → Except Exn (Tuple Args)
  | [], _, _, _ => Except.ok ()
  | T :: Args, Is, params, global_y =>
      match parse_json_param T (params.index Is) with
      | Except.error e => Except.error e
      | Except.ok a =>
          match parse_params_to_tuple_impl Args (Is + 1) params global_y with
          | Except.error e => Except.error e
          | Except.ok rest => Except.ok (a.decay global_y, rest)

/-- The function `parse_params_to_tuple<Args...>`. -/
def parse_params_to_tuple (Args : List ParamType) (params : Value) (global_y : Int) :
    Except Exn (Tuple Args) :=
  if !params.isArray then
    throw (Exn.runtime_error "Expected JSON array for function parameters")
  else if params.size < Args.length then
    throw (Exn.runtime_error "Not enough elements in JSON array to match function signature")
  else
    parse_params_to_tuple_impl Args 0 params global_y

/-- What a call of a wrapped `std::function<Json::Value(Args...)>` leaves
behind: what it returned or threw, the contents of the argument tuple after the
call (a parameter declared `int &` is bound to its element of the tuple and may
be assigned), and the value of `global_y` after the call. -/
structure FuncResult (Args : List ParamType) where
  ret : Except Exn Value
  args : Tuple Args
  global_y : Int

/-- A wrapped function `std::function<Json::Value(Args...)>`: it receives the
argument tuple and runs in a state of `global_y`. -/
abbrev Func (Args : List ParamType) : Type := Tuple Args → Int → FuncResult Args

/-- The observable outcome of an invocation: the JSON value returned or the
exception thrown, the value of `global_y` afterwards, and (an instrumentation
counter) how many times the wrapped function was called. -/
structure Outcome where
  ret : Except Exn Value
  global_y : Int
  func_calls : Nat

/-- An invocation that throws `e` before the wrapped function is reached. -/
def Outcome.thrown (e : Exn) (global_y : Int) : Outcome :=
  { ret := Except.error e, global_y := global_y, func_calls := 0 }

/-- The function `invoke_func_by_json<Args...>`: decode the tuple, then `std::apply` the
function to it. The tuple is a local of this function and is dropped on
return. -/
def invoke_func_by_json {Args : List ParamType} (params : Value) (func : Func Args)
    (global_y : Int) : Outcome :=
  match parse_params_to_tuple Args params global_y with
  | Except.error e => Outcome.thrown e global_y
  | Except.ok args_tuple =>
      let r := func args_tuple global_y
      { ret := r.ret, global_y := r.global_y, func_calls := 1 }

/-! ## The request class -/

/-- The struct `param_description`. -/
structure param_description where
  name : String
  description : String
  deriving DecidableEq

/-- The class `json_request_impl<Args...>` together with its base `json_request`: the
description, the wrapped function, and the
`std::array<param_description, sizeof...(Args)>` of parameter descriptions. -/
structure json_request_impl (Args : List ParamType) where
  description : String
  func : Func Args
  params : List param_description
  params_size : params.length = Args.length

namespace json_request_impl

variable {Args : List ParamType}

/-- The constructor `json_request_impl(desc, f)`: `params()` value-initialises
the array, every name and description is the empty string. -/
def ctor (desc : String) (f : Func Args) : json_request_impl Args :=
  { description := desc, func := f,
    params := List.replicate Args.length { name := "", description := "" },
    params_size := List.length_replicate _ _ }

/-- The constructor `json_request_impl(desc, f, std::array<...> param_desc)`. -/
def ctor_array (desc : String) (f : Func Args) (param_desc : List param_description)
    (h : param_desc.length = Args.length) : json_request_impl Args :=
  { description := desc, func := f, params := param_desc, params_size := h }

/-- The constructor
`json_request_impl(desc, f, std::initializer_list<param_description>)`. -/
def ctor_list (desc : String) (f : Func Args) (param_desc_list : List param_description) :
    Except Exn (json_request_impl Args) :=
  if h : param_desc_list.length ≠ Args.length then
    throw (Exn.invalid_argument "Invalid number of parameter descriptions")
  else
    pure { description := desc, func := f, params := param_desc_list,
           params_size := not_not.mp h }

/-- The loop of `execute` over `params` in the object branch: each declared
name must be a member of `args`, and its value is appended to
`array_params`. -/
def collect_array_params (args : Value) :
    List param_description → Value → Except Exn Value
  | [], array_params => Except.ok array_params
  | param :: rest, array_params =>
      if !args.isMember param.name then
        Except.error (Exn.invalid_argument ("Missing parameter: " ++ param.name))
      else
        collect_array_params args rest (array_params.append (args.get param.name))

/-- The method `json_request_impl::execute`. -/
def execute (self : json_request_impl Args) (args : Value) (global_y : Int) : Outcome :=
  if args.size ≠ Args.length then
    Outcome.thrown (Exn.invalid_argument "Invalid number of parameters") global_y
  else if args.isArray then
    invoke_func_by_json args self.func global_y
  else if args.isObject then
    match collect_array_params args self.params (arrayValue []) with
    | Except.error e => Outcome.thrown e global_y
    | Except.ok array_params => invoke_func_by_json array_params self.func global_y
  else
    Outcome.thrown (Exn.invalid_argument "Parameters must be an array or an object") global_y

/-- One step of the fold of `generate_params_description`, for the index `Is`:
the four assignments to `params_json[params[Is].name]`, in order. The member
that `params_json[name]` refers to in the last three is the one the first has
just assigned. -/
def describe_param (self : json_request_impl Args) (params_json : Value) (Is : Nat) : Value :=
  let name := (self.params.getD Is { name := "", description := "" }).name
  let j0 := params_json.set name (objectValue [])
  let j1 := j0.set name ((j0.get name).set "type_example"
    (stringValue (get_param_example (Args.getD Is ParamType.int))))
  let j2 := j1.set name ((j1.get name).set "description"
    (stringValue (self.params.getD Is { name := "", description := "" }).description))
  j2.set name ((j2.get name).set "index" (uintValue Is))

/-- The method `json_request_impl::generate_params_description`: the value left in
`params_json`. The fold runs over the indices `0 .. sizeof...(Args) - 1`. -/
def generate_params_description (self : json_request_impl Args) : Value :=
  (List.range Args.length).foldl self.describe_param (objectValue [])

/-- The method `json_request::help`. -/
def help (self : json_request_impl Args) : Value :=
  let help_json := nullValue.set "description" (stringValue self.description)
  let params_json := self.generate_params_description
  help_json.set "params" params_json

end json_request_impl

/-! ## The example request -/

/-- The body of `test_request_base_func(int x, int & y)`. Division by zero and
signed overflow are undefined in C++. Neither parameter is assigned. -/
def test_request_base_func : Func [ParamType.int, ParamType.int_ref]
  | (x, y, ()), global_y =>
      let ret : Except Exn Value :=
        if y = 0 then throw Exn.undefined_behaviour
        else
          let q := Int.tdiv x y
          if q < Json.minInt ∨ Json.maxInt < q then throw Exn.undefined_behaviour
          else
            let sum := q * 2
            if sum < Json.minInt ∨ Json.maxInt < sum then throw Exn.undefined_behaviour
            else pure ((objectValue []).set "result" (intValue sum))
      { ret := ret, args := (x, y, ()), global_y := global_y }

/-- The parameter descriptions `test_request_args(GET_DESCRIPTION)`. -/
def test_request_params : List param_description :=
  [ { name := "x", description := "First integer parameter" },
    { name := "y", description := "Second integer parameter" } ]

/-- The global `test_request` that `JSON_REQUEST` defines. -/
def test_request : json_request_impl [ParamType.int, ParamType.int_ref] :=
  { description := "Test request", func := test_request_base_func,
    params := test_request_params, params_size := rfl }

/-- The initial value of `global_y`. -/
def global_y_init : Int := 123

/-! ## Notions of the specification -/

/-- The number a JSON value denotes, when the value is a number. -/
def Json.Value.number? : Value → Option ℚ
  | intValue i => some (i : ℚ)
  | uintValue u => some (u : ℚ)
  | realValue (Json.Real.finite q) => some q
  | _ => none

/-- The specification's condition on the JSON value of an integer parameter:
the value is a number, it has no fractional part (it equals the integer `n`),
and `n` lies within the range of a 32-bit signed integer. -/
def Json.Value.denotes_int32 (v : Value) (n : Int) : Prop :=
  v.number? = some (n : ℚ) ∧ -2147483648 ≤ n ∧ n ≤ 2147483647

/-- The JSON value an argument bundle supplies for the parameter at position
`i`: element `i` of an array, and of an object the member named after
parameter `i`. -/
def json_request_impl.supplied {Args : List ParamType} (c : json_request_impl Args)
    (args : Value) (i : Nat) : Value :=
  if args.isArray then args.index i
  else args.get (c.params.getD i { name := "", description := "" }).name

/-- The declared name of the parameter at position `i`. -/
def json_request_impl.param_name {Args : List ParamType} (c : json_request_impl Args)
    (i : Nat) : String :=
  (c.params.getD i { name := "", description := "" }).name

/-- The help entry the specification gives for the parameter at position `i`:
`{"type_example": describe(type_i), "description": description_i, "index": i}`. -/
def json_request_impl.param_entry {Args : List ParamType} (c : json_request_impl Args)
    (i : Nat) : Value :=
  objectValue
    [ ("type_example", stringValue (get_param_example (Args.getD i ParamType.int))),
      ("description",
        stringValue (c.params.getD i { name := "", description := "" }).description),
      ("index", uintValue i) ]

/-- The help document the specification gives for a callable:
`{"description": <text>, "params": {n_0: entry_0, ..., n_{N-1}: entry_{N-1}}}`. -/
def json_request_impl.help_document {Args : List ParamType} (c : json_request_impl Args) :
    Value :=
  objectValue
    [ ("description", stringValue c.description),
      ("params", objectValue
        ((List.range Args.length).map (fun i => (c.param_name i, c.param_entry i)))) ]

/-- A wrapped function of two plain integers that returns null, used to build
example callables. -/
def null_func : Func [ParamType.int, ParamType.int] :=
  fun t global_y => { ret := Except.ok nullValue, args := t, global_y := global_y }

/-- The exception of a failed integer decode. -/
def decode_error : Exn := Exn.invalid_argument "Expected integer parameter"

/-! ## Sequences of calls, and further example callables -/

/-- A call made on the global `test_request`: `execute(args)`, which
`operator()` forwards to, or `help()`. -/
inductive Call where
  | execute (args : Value)
  | help

/-- The value of `global_y` after one call on `test_request`, from the value
before it. `help` is a `const` method that touches no global. -/
def Call.step (global_y : Int) : Call → Int
  | Call.execute args => (test_request.execute args global_y).global_y
  | Call.help => global_y

/-- The value of `global_y` after a sequence of calls on `test_request`. -/
def run_calls (calls : List Call) (global_y : Int) : Int :=
  calls.foldl Call.step global_y

/-- A wrapped function `Json::Value f(int & y)` that reads `y`, assigns 7 to
`y`, and returns the value it read. It does not name `global_y` itself. -/
def assign_func : Func [ParamType.int_ref]
  | (y, ()), global_y =>
      { ret := Except.ok (intValue y), args := (7, ()), global_y := global_y }

/-- A callable `json_request_impl<int &>` around `assign_func`. -/
def assign_request : json_request_impl [ParamType.int_ref] :=
  json_request_impl.ctor_array "Assign" assign_func
    [{ name := "y", description := "State parameter" }] rfl

/-- A wrapped function `Json::Value f(int)` that throws
`std::runtime_error("boom")`. -/
def throwing_func : Func [ParamType.int] :=
  fun t global_y =>
    { ret := Except.error (Exn.runtime_error "boom"), args := t, global_y := global_y }

/-- A callable `json_request_impl<int>` around `throwing_func`. -/
def throwing_request : json_request_impl [ParamType.int] :=
  json_request_impl.ctor_array "Throw" throwing_func
    [{ name := "x", description := "Integer parameter" }] rfl

/-- The four errors of the dispatcher itself: the parameter-count error, the
shape error, a missing-parameter error, and the integer-decode error. -/
def dispatcher_error (e : Exn) : Prop :=
  e = Exn.invalid_argument "Invalid number of parameters"
    ∨ e = Exn.invalid_argument "Parameters must be an array or an object"
    ∨ (∃ name, e = Exn.invalid_argument ("Missing parameter: " ++ name))
    ∨ e = Exn.invalid_argument "Expected integer parameter"

/-! ## Auxiliary facts -/

section Auxiliary

open json_request_impl

variable {Args : List ParamType}

theorem collect_array_params_ok (o : Value) :
    ∀ (ps : List param_description) (acc : List Value),
      (∀ p ∈ ps, o.isMember p.name = true) →
      collect_array_params o ps (arrayValue acc)
        = Except.ok (arrayValue (acc ++ ps.map (fun p => o.get p.name)))
  | [], acc, _ => by simp [collect_array_params]
  | p :: ps, acc, h => by
      have hp : o.isMember p.name = true := h p (List.mem_cons_self _ _)
      have hps : ∀ q ∈ ps, o.isMember q.name = true :=
        fun q hq => h q (List.mem_cons_of_mem _ hq)
      simp [collect_array_params, hp, Json.Value.append,
        collect_array_params_ok o ps (acc ++ [o.get p.name]) hps]

theorem collect_array_params_missing (o : Value) (p : param_description)
    (post : List param_description) (hp : o.isMember p.name = false) :
    ∀ (pre : List param_description) (acc : Value),
      (∀ q ∈ pre, o.isMember q.name = true) →
      collect_array_params o (pre ++ p :: post) acc
        = Except.error (Exn.invalid_argument ("Missing parameter: " ++ p.name))
  | [], acc, _ => by simp [collect_array_params, hp]
  | q :: pre, acc, h => by
      have hq : o.isMember q.name = true := h q (List.mem_cons_self _ _)
      have hpre : ∀ r ∈ pre, o.isMember r.name = true :=
        fun r hr => h r (List.mem_cons_of_mem _ hr)
      simp [collect_array_params, hq,
        collect_array_params_missing o p post hp pre _ hpre]

theorem execute_array (c : json_request_impl Args) (xs : List Value) (global_y : Int)
    (h : xs.length = Args.length) :
    c.execute (arrayValue xs) global_y
      = invoke_func_by_json (arrayValue xs) c.func global_y := by
  simp [execute, Json.Value.size, h, Json.Value.isArray]

theorem execute_object (c : json_request_impl Args) (ms : List (String × Value))
    (global_y : Int) (h : ms.length = Args.length) :
    c.execute (objectValue ms) global_y
      = match collect_array_params (objectValue ms) c.params (arrayValue []) with
        | Except.error e => Outcome.thrown e global_y
        | Except.ok array_params => invoke_func_by_json array_params c.func global_y := by
  simp [execute, Json.Value.size, h, Json.Value.isArray, Json.Value.isObject]

theorem first_absent (o : Value) :
    ∀ (ps : List param_description), (∃ p ∈ ps, o.isMember p.name = false) →
      ∃ pre p post, ps = pre ++ p :: post
        ∧ (∀ q ∈ pre, o.isMember q.name = true) ∧ o.isMember p.name = false
  | [], h => by obtain ⟨p, hp, _⟩ := h; simp at hp
  | a :: ps, h => by
      by_cases ha : o.isMember a.name = true
      · have h2 : ∃ p ∈ ps, o.isMember p.name = false := by
          obtain ⟨p, hp, habs⟩ := h
          rcases List.mem_cons.mp hp with rfl | hmem
          · rw [ha] at habs; cases habs
          · exact ⟨p, hmem, habs⟩
        obtain ⟨pre, p, post, hsplit, hpre, hp⟩ := first_absent o ps h2
        refine ⟨a :: pre, p, post, by simp [hsplit], ?_, hp⟩
        intro q hq
        rcases List.mem_cons.mp hq with rfl | hmem
        · exact ha
        · exact hpre q hmem
      · exact ⟨[], a, ps, rfl, by simp, by simpa using ha⟩

theorem execute_size_ne (c : json_request_impl Args) (args : Value) (global_y : Int)
    (hcount : args.size ≠ Args.length) :
    c.execute args global_y
      = Outcome.thrown (Exn.invalid_argument "Invalid number of parameters") global_y := by
  simp [execute, hcount]

end Auxiliary

/-! ## Array form and object form -/

/-- C1. Array-form and object-form invocation are equivalent: for a callable
with declared names `n_0 .. n_{N-1}` and a JSON object `o` with exactly `N`
members that contains every `n_i`, `execute(o)` has the same outcome (returned
value or exception, state of `global_y`, calls of the wrapped function) as
`execute` of the array `[o[n_0], ..., o[n_{N-1}]]`, from the same state. -/
theorem execute_object_eq_execute_array {Args : List ParamType}
    (c : json_request_impl Args) (o : Value) (global_y : Int)
    (hobj : o.isObject = true) (hsize : o.size = Args.length)
    (hall : ∀ p ∈ c.params, o.isMember p.name = true) :
    c.execute o global_y
      = c.execute (arrayValue (c.params.map (fun p => o.get p.name))) global_y := by
  cases o with
  | objectValue ms =>
      have hlen : (c.params.map (fun p => (objectValue ms).get p.name)).length = Args.length := by
        simp [c.params_size]
      rw [execute_object c ms global_y hsize, execute_array c _ global_y hlen,
        collect_array_params_ok (objectValue ms) c.params [] hall]
      simp
  | _ => simp [Json.Value.isObject] at hobj

theorem execute_object_eq_execute_array_witness :
    test_request.execute (objectValue [("y", nullValue), ("x", intValue 200)]) 123
      = test_request.execute (arrayValue [intValue 200, nullValue]) 123 :=
  execute_object_eq_execute_array test_request
    (objectValue [("y", nullValue), ("x", intValue 200)]) 123 rfl rfl (by decide)

/-! ## The parameter-count check -/

/-- C2. For a callable of arity `N` and a JSON array or object whose element
or member count differs from `N` (whatever the elements are and whichever keys
the object has), `execute` throws `invalid_argument("Invalid number of
parameters")`. Nothing is decoded: the outcome is the same whether or not
the elements would decode, the wrapped function is not called and `global_y`
is untouched. -/
theorem execute_count_mismatch {Args : List ParamType}
    (c : json_request_impl Args) (args : Value) (global_y : Int)
    (_hshape : args.isArray = true ∨ args.isObject = true)
    (hcount : args.size ≠ Args.length) :
    c.execute args global_y
      = { ret := Except.error (Exn.invalid_argument "Invalid number of parameters"),
          global_y := global_y, func_calls := 0 } := by
  rw [execute_size_ne c args global_y hcount]; rfl

theorem execute_count_mismatch_witness :
    test_request.execute
        (objectValue [("x", intValue 200), ("y", nullValue), ("z", stringValue "s")]) 123
      = { ret := Except.error (Exn.invalid_argument "Invalid number of parameters"),
          global_y := 123, func_calls := 0 } :=
  execute_count_mismatch test_request
    (objectValue [("x", intValue 200), ("y", nullValue), ("z", stringValue "s")]) 123
    (Or.inr rfl) (by decide)

/-! ## Missing parameters -/

/-- C3, as stated, fails: `test_request` called with the object `{"x": 200}`,
which lacks the declared name `y`, does not throw "Missing parameter: y"; the
object has one member where two are declared, and the count check comes
first. -/
theorem execute_missing_counterexample :
    (objectValue [("x", intValue 200)]).isObject = true
      ∧ (objectValue [("x", intValue 200)]).isMember "y" = false
      ∧ (test_request.execute (objectValue [("x", intValue 200)]) 123).ret
          = Except.error (Exn.invalid_argument "Invalid number of parameters")
      ∧ (test_request.execute (objectValue [("x", intValue 200)]) 123).ret
          ≠ Except.error (Exn.invalid_argument "Missing parameter: y") := by
  refine ⟨rfl, rfl, rfl, ?_⟩
  intro h
  have h1 : Exn.invalid_argument "Invalid number of parameters"
      = Exn.invalid_argument "Missing parameter: y" := Except.error.inj h
  exact absurd h1 (by decide)

/-- C3, amended. For a callable of arity `N` and a JSON object with exactly
`N` members that lacks at least one declared parameter name, the declared
names split as `pre ++ p :: post` with every name of `pre` present and `p`
absent (so `p` is the first absent name in declaration order), and `execute`
throws `invalid_argument("Missing parameter: " + p.name)`. -/
theorem execute_missing_parameter {Args : List ParamType}
    (c : json_request_impl Args) (o : Value) (global_y : Int)
    (hobj : o.isObject = true) (hsize : o.size = Args.length)
    (hlack : ∃ p ∈ c.params, o.isMember p.name = false) :
    ∃ pre p post, c.params = pre ++ p :: post
      ∧ (∀ q ∈ pre, o.isMember q.name = true)
      ∧ o.isMember p.name = false
      ∧ (c.execute o global_y).ret
          = Except.error (Exn.invalid_argument ("Missing parameter: " ++ p.name)) := by
  obtain ⟨pre, p, post, hsplit, hpre, hp⟩ := first_absent o c.params hlack
  refine ⟨pre, p, post, hsplit, hpre, hp, ?_⟩
  cases o with
  | objectValue ms =>
      rw [execute_object c ms global_y hsize, hsplit,
        collect_array_params_missing (objectValue ms) p post hp pre _ hpre]
      rfl
  | _ => simp [Json.Value.isObject] at hobj

theorem execute_missing_parameter_witness :
    ∃ pre p post, test_request.params = pre ++ p :: post
      ∧ (∀ q ∈ pre, (objectValue [("x", intValue 200), ("z", nullValue)]).isMember q.name = true)
      ∧ (objectValue [("x", intValue 200), ("z", nullValue)]).isMember p.name = false
      ∧ (test_request.execute (objectValue [("x", intValue 200), ("z", nullValue)]) 123).ret
          = Except.error (Exn.invalid_argument ("Missing parameter: " ++ p.name)) :=
  execute_missing_parameter test_request
    (objectValue [("x", intValue 200), ("z", nullValue)]) 123 rfl rfl
    ⟨{ name := "y", description := "Second integer parameter" }, by decide, rfl⟩

/-! ## Decoding an integer parameter -/

section Codec

theorem isInt_iff_denotes (v : Value) : v.isInt = true ↔ ∃ n, v.denotes_int32 n := by
  cases v with
  | intValue i =>
      simp only [Json.Value.isInt, Json.Value.denotes_int32, Json.Value.number?, Json.minInt,
        Json.maxInt, Bool.and_eq_true, decide_eq_true_eq, Option.some.injEq, Int.cast_inj]
      constructor
      · rintro ⟨h1, h2⟩; exact ⟨i, rfl, h1, h2⟩
      · rintro ⟨n, rfl, h1, h2⟩; exact ⟨h1, h2⟩
  | uintValue u =>
      simp only [Json.Value.isInt, Json.Value.denotes_int32, Json.Value.number?,
        Json.maxInt, decide_eq_true_eq, Option.some.injEq]
      constructor
      · intro h; exact ⟨(u : Int), by push_cast; rfl, by omega, h⟩
      · rintro ⟨n, hn, _, h2⟩
        have : (u : Int) = n := by exact_mod_cast hn
        omega
  | realValue r =>
      cases r with
      | finite q =>
          simp only [Json.Value.isInt, Json.Value.InRange, Json.Value.IsIntegral,
            Json.Value.denotes_int32, Json.Value.number?, Json.minInt, Json.maxInt,
            Bool.and_eq_true, decide_eq_true_eq, Option.some.injEq]
          constructor
          · rintro ⟨⟨h1, h2⟩, h3⟩
            have hq : ((q.num : Int) : ℚ) = q := (Rat.den_eq_one_iff q).mp h3
            refine ⟨q.num, hq.symm, ?_, ?_⟩
            · rw [← hq] at h1; exact_mod_cast h1
            · rw [← hq] at h2; exact_mod_cast h2
          · rintro ⟨n, rfl, h1, h2⟩
            refine ⟨⟨?_, ?_⟩, Rat.den_intCast n⟩
            · exact_mod_cast h1
            · exact_mod_cast h2
      | pos_inf => simp [Json.Value.isInt, Json.Value.InRange, Json.Value.denotes_int32,
          Json.Value.number?]
      | neg_inf => simp [Json.Value.isInt, Json.Value.InRange, Json.Value.denotes_int32,
          Json.Value.number?]
      | nan => simp [Json.Value.isInt, Json.Value.InRange, Json.Value.denotes_int32,
          Json.Value.number?]
  | nullValue => simp [Json.Value.isInt, Json.Value.denotes_int32, Json.Value.number?]
  | stringValue s => simp [Json.Value.isInt, Json.Value.denotes_int32, Json.Value.number?]
  | booleanValue b => simp [Json.Value.isInt, Json.Value.denotes_int32, Json.Value.number?]
  | arrayValue xs => simp [Json.Value.isInt, Json.Value.denotes_int32, Json.Value.number?]
  | objectValue ms => simp [Json.Value.isInt, Json.Value.denotes_int32, Json.Value.number?]

theorem asInt_of_denotes (v : Value) (n : Int) (h : v.denotes_int32 n) :
    v.asInt = Except.ok n := by
  have hi : v.isInt = true := (isInt_iff_denotes v).mpr ⟨n, h⟩
  obtain ⟨hnum, -, -⟩ := h
  cases v with
  | intValue i =>
      simp only [Json.Value.number?, Option.some.injEq, Int.cast_inj] at hnum
      subst hnum
      simp [Json.Value.asInt, hi, pure, Except.pure]
  | uintValue u =>
      simp only [Json.Value.number?, Option.some.injEq] at hnum
      have : (u : Int) = n := by exact_mod_cast hnum
      simp [Json.Value.asInt, hi, this, pure, Except.pure]
  | realValue r =>
      cases r with
      | finite q =>
          simp only [Json.Value.number?, Option.some.injEq] at hnum
          simp only [Json.Value.isInt, Bool.and_eq_true] at hi
          subst hnum
          simp [Json.Value.asInt, hi.1, pure, Except.pure]
      | pos_inf => simp [Json.Value.number?] at hnum
      | neg_inf => simp [Json.Value.number?] at hnum
      | nan => simp [Json.Value.number?] at hnum
  | nullValue => simp [Json.Value.number?] at hnum
  | stringValue s => simp [Json.Value.number?] at hnum
  | booleanValue b => simp [Json.Value.number?] at hnum
  | arrayValue xs => simp [Json.Value.number?] at hnum
  | objectValue ms => simp [Json.Value.number?] at hnum

theorem denotes_int32_unique (v : Value) (n m : Int)
    (hn : v.denotes_int32 n) (hm : v.denotes_int32 m) : n = m := by
  have h := hn.1.symm.trans hm.1
  simp only [Option.some.injEq] at h
  exact_mod_cast h

theorem parse_int_of_denotes (v : Value) (n : Int) (h : v.denotes_int32 n) :
    parse_json_param ParamType.int v = Except.ok (Native.value n) := by
  have hi : v.isInt = true := (isInt_iff_denotes v).mpr ⟨n, h⟩
  simp [parse_json_param, hi, asInt_of_denotes v n h, pure, Except.pure]

theorem parse_int_of_not_denotes (v : Value) (h : ¬ ∃ n, v.denotes_int32 n) :
    parse_json_param ParamType.int v = Except.error decode_error := by
  have hi : v.isInt = false := by
    cases hv : v.isInt with
    | false => rfl
    | true => exact absurd ((isInt_iff_denotes v).mp hv) h
  simp [parse_json_param, hi, decode_error, throw, throwThe, MonadExceptOf.throw]

theorem parse_json_param_error (T : ParamType) (v : Value) (e : Exn)
    (h : parse_json_param T v = Except.error e) : e = decode_error := by
  cases T with
  | int =>
      by_cases hd : ∃ n, v.denotes_int32 n
      · obtain ⟨n, hn⟩ := hd
        rw [parse_int_of_denotes v n hn] at h
        cases h
      · rw [parse_int_of_not_denotes v hd] at h
        exact (Except.error.inj h).symm
  | int_ref => simp [parse_json_param, pure, Except.pure] at h

end Codec

/-- C10. Decoding a plain integer parameter succeeds exactly when the JSON
value is a number with no fractional part within the 32-bit signed range, and
then returns that integer; for every other JSON value (null, bool, string,
array, object, a fractional or out-of-range number) it throws
`invalid_argument("Expected integer parameter")`. -/
theorem parse_json_param_int_spec (v : Value) :
    (∀ n : Int, parse_json_param ParamType.int v = Except.ok (Native.value n)
        ↔ v.denotes_int32 n)
      ∧ (∀ r, parse_json_param ParamType.int v = Except.ok r → ∃ n, r = Native.value n)
      ∧ ((¬ ∃ n, v.denotes_int32 n) → parse_json_param ParamType.int v
          = Except.error (Exn.invalid_argument "Expected integer parameter")) := by
  by_cases hd : ∃ n, v.denotes_int32 n
  · obtain ⟨m, hm⟩ := hd
    have hp := parse_int_of_denotes v m hm
    refine ⟨fun n => ⟨fun h => ?_, fun h => parse_int_of_denotes v n h⟩, ?_, ?_⟩
    · rw [hp] at h
      have : m = n := Native.value.inj (Except.ok.inj h)
      exact this ▸ hm
    · intro r hr
      rw [hp] at hr
      exact ⟨m, (Except.ok.inj hr).symm⟩
    · intro h; exact absurd ⟨m, hm⟩ h
  · have hp := parse_int_of_not_denotes v hd
    refine ⟨fun n => ⟨fun h => ?_, fun h => absurd ⟨n, h⟩ hd⟩, ?_, fun _ => hp⟩
    · rw [hp] at h; cases h
    · intro r hr; rw [hp] at hr; cases hr

theorem parse_json_param_int_spec_witness :
    parse_json_param ParamType.int (realValue (Json.Real.finite 200))
        = Except.ok (Native.value 200)
      ∧ parse_json_param ParamType.int (stringValue "200")
        = Except.error (Exn.invalid_argument "Expected integer parameter")
      ∧ parse_json_param ParamType.int (intValue 2147483648)
        = Except.error (Exn.invalid_argument "Expected integer parameter") :=
  ⟨((parse_json_param_int_spec (realValue (Json.Real.finite 200))).1 200).mpr
      ⟨by simp [Json.Value.number?], by norm_num, by norm_num⟩,
    (parse_json_param_int_spec (stringValue "200")).2.2
      (by simp [Json.Value.denotes_int32, Json.Value.number?]),
    (parse_json_param_int_spec (intValue 2147483648)).2.2 (by
      rintro ⟨n, hn, -, h2⟩
      simp only [Json.Value.number?, Option.some.injEq] at hn
      have : (2147483648 : Int) = n := by exact_mod_cast hn
      omega)⟩

/-! ## Building the argument tuple -/

section TupleFacts

open json_request_impl

theorem impl_ok_elem : ∀ (Args : List ParamType) (Is : Nat) (params : Value) (g : Int)
    (t : Tuple Args), parse_params_to_tuple_impl Args Is params g = Except.ok t →
    ∀ (i : Nat) (T : ParamType), Args[i]? = some T →
      ∃ r, parse_json_param T (params.index (Is + i)) = Except.ok r
        ∧ r.decay g = Tuple.nth t i
  | [], _, _, _, _ => by intro _ i T h; simp at h
  | T0 :: Args, Is, params, g, t => by
      intro h i T hT
      unfold parse_params_to_tuple_impl at h
      cases h0 : parse_json_param T0 (params.index Is) with
      | error e => rw [h0] at h; cases h
      | ok a =>
          rw [h0] at h
          cases h1 : parse_params_to_tuple_impl Args (Is + 1) params g with
          | error e => rw [h1] at h; cases h
          | ok rest =>
              rw [h1] at h
              have ht : t = (a.decay g, rest) := (Except.ok.inj h).symm
              subst ht
              cases i with
              | zero =>
                  simp only [List.getElem?_cons_zero, Option.some.injEq] at hT
                  subst hT
                  exact ⟨a, by simpa using h0, rfl⟩
              | succ j =>
                  simp only [List.getElem?_cons_succ] at hT
                  obtain ⟨r, hr, hd⟩ := impl_ok_elem Args (Is + 1) params g rest h1 j T hT
                  refine ⟨r, ?_, ?_⟩
                  · have : Is + (j + 1) = Is + 1 + j := by omega
                    rw [this]; exact hr
                  · simpa [Tuple.nth] using hd

theorem impl_error : ∀ (Args : List ParamType) (Is : Nat) (params : Value) (g : Int)
    (e : Exn), parse_params_to_tuple_impl Args Is params g = Except.error e →
    e = decode_error
  | [], _, _, _, _ => by intro h; simp [parse_params_to_tuple_impl] at h
  | T0 :: Args, Is, params, g, e => by
      intro h
      unfold parse_params_to_tuple_impl at h
      cases h0 : parse_json_param T0 (params.index Is) with
      | error e0 =>
          rw [h0] at h
          have : e0 = e := Except.error.inj h
          exact this ▸ parse_json_param_error T0 _ e0 h0
      | ok a =>
          rw [h0] at h
          cases h1 : parse_params_to_tuple_impl Args (Is + 1) params g with
          | error e1 =>
              rw [h1] at h
              have : e1 = e := Except.error.inj h
              exact this ▸ impl_error Args (Is + 1) params g e1 h1
          | ok rest => rw [h1] at h; cases h

theorem impl_of_elem : ∀ (Args : List ParamType) (Is : Nat) (params : Value) (g : Int)
    (d : Tuple Args),
    (∀ (i : Nat) (T : ParamType), Args[i]? = some T →
      ∃ r, parse_json_param T (params.index (Is + i)) = Except.ok r
        ∧ r.decay g = Tuple.nth d i) →
    parse_params_to_tuple_impl Args Is params g = Except.ok d
  | [], _, _, _, d => by intro _; cases d; rfl
  | T0 :: Args, Is, params, g, (a, rest) => by
      intro h
      obtain ⟨r0, hr0, hd0⟩ := h 0 T0 (by simp)
      have hrest : parse_params_to_tuple_impl Args (Is + 1) params g = Except.ok rest := by
        apply impl_of_elem Args (Is + 1) params g rest
        intro i T hT
        obtain ⟨r, hr, hd⟩ := h (i + 1) T (by simpa using hT)
        refine ⟨r, ?_, ?_⟩
        · have : Is + 1 + i = Is + (i + 1) := by omega
          rw [this]; exact hr
        · simpa [Tuple.nth] using hd
      unfold parse_params_to_tuple_impl
      simp only [Nat.add_zero] at hr0
      rw [hr0, hrest]
      simp only [Tuple.nth] at hd0
      subst hd0
      rfl

theorem impl_error_of_bad (Args : List ParamType) (Is : Nat) (params : Value) (g : Int)
    (i : Nat) (hT : Args[i]? = some ParamType.int)
    (hbad : ¬ ∃ n, (params.index (Is + i)).denotes_int32 n) :
    parse_params_to_tuple_impl Args Is params g = Except.error decode_error := by
  cases h : parse_params_to_tuple_impl Args Is params g with
  | error e => rw [impl_error Args Is params g e h]
  | ok t =>
      obtain ⟨r, hr, -⟩ := impl_ok_elem Args Is params g t h i ParamType.int hT
      rw [parse_int_of_not_denotes _ hbad] at hr
      cases hr

theorem parse_params_to_tuple_array (Args : List ParamType) (xs : List Value) (g : Int)
    (h : xs.length = Args.length) :
    parse_params_to_tuple Args (arrayValue xs) g
      = parse_params_to_tuple_impl Args 0 (arrayValue xs) g := by
  simp [parse_params_to_tuple, Json.Value.isArray, Json.Value.size, h]

theorem execute_resolved {Args : List ParamType} (c : json_request_impl Args)
    (args : Value) (g : Int)
    (hshape : args.isArray = true
      ∨ (args.isObject = true ∧ ∀ p ∈ c.params, args.isMember p.name = true))
    (hsize : args.size = Args.length) :
    ∃ xs : List Value, xs.length = Args.length
      ∧ (∀ i, i < Args.length → (arrayValue xs).index i = c.supplied args i)
      ∧ c.execute args g = invoke_func_by_json (arrayValue xs) c.func g := by
  cases args with
  | arrayValue xs =>
      exact ⟨xs, hsize, fun i _ => by simp [supplied, Json.Value.isArray],
        execute_array c xs g hsize⟩
  | objectValue ms =>
      have hall : ∀ p ∈ c.params, (objectValue ms).isMember p.name = true := by
        rcases hshape with h | h
        · simp [Json.Value.isArray] at h
        · exact h.2
      refine ⟨c.params.map (fun p => (objectValue ms).get p.name), by simp [c.params_size],
        ?_, ?_⟩
      · intro i hi
        have hi2 : i < c.params.length := by rw [c.params_size]; exact hi
        simp [supplied, Json.Value.isArray, Json.Value.index, List.getD_eq_getElem?_getD,
          List.getElem?_eq_getElem hi2]
      · rw [execute_object c ms g hsize, collect_array_params_ok (objectValue ms) c.params [] hall]
        simp
  | nullValue => simp [Json.Value.isArray, Json.Value.isObject] at hshape
  | intValue _ => simp [Json.Value.isArray, Json.Value.isObject] at hshape
  | uintValue _ => simp [Json.Value.isArray, Json.Value.isObject] at hshape
  | realValue _ => simp [Json.Value.isArray, Json.Value.isObject] at hshape
  | stringValue _ => simp [Json.Value.isArray, Json.Value.isObject] at hshape
  | booleanValue _ => simp [Json.Value.isArray, Json.Value.isObject] at hshape

end TupleFacts

/-! ## Decode failures -/

/-- C4, as stated, fails: `test_request` called with the object
`{"x": "abc", "z": 0}` has the right size and a string where the plain integer
`x` is declared, yet the exception is "Missing parameter: y", not the decode
error. -/
theorem execute_decode_counterexample :
    (objectValue [("x", stringValue "abc"), ("z", intValue 0)]).size = 2
      ∧ test_request.supplied (objectValue [("x", stringValue "abc"), ("z", intValue 0)]) 0
          = stringValue "abc"
      ∧ (test_request.execute (objectValue [("x", stringValue "abc"), ("z", intValue 0)]) 123).ret
          = Except.error (Exn.invalid_argument "Missing parameter: y")
      ∧ (test_request.execute (objectValue [("x", stringValue "abc"), ("z", intValue 0)]) 123).ret
          ≠ Except.error (Exn.invalid_argument "Expected integer parameter") := by
  refine ⟨rfl, rfl, rfl, ?_⟩
  intro h
  have h1 : Exn.invalid_argument "Missing parameter: y"
      = Exn.invalid_argument "Expected integer parameter" := Except.error.inj h
  exact absurd h1 (by decide)

/-- C4, amended. For a callable of arity `N` and an argument bundle of size
`N` that is an array, or an object containing every declared name: if the JSON
value supplied for some plain-integer parameter is not a number without
fractional part in the 32-bit signed range, `execute` throws
`invalid_argument("Expected integer parameter")`, the wrapped function is not
called and `global_y` is untouched; and whenever the wrapped function is
called, every parameter has decoded successfully. -/
theorem execute_decode_error {Args : List ParamType} (c : json_request_impl Args)
    (args : Value) (global_y : Int)
    (hshape : args.isArray = true
      ∨ (args.isObject = true ∧ ∀ p ∈ c.params, args.isMember p.name = true))
    (hsize : args.size = Args.length) :
    (∀ i, Args[i]? = some ParamType.int → (¬ ∃ n, (c.supplied args i).denotes_int32 n) →
        c.execute args global_y
          = { ret := Except.error (Exn.invalid_argument "Expected integer parameter"),
              global_y := global_y, func_calls := 0 })
      ∧ ((c.execute args global_y).func_calls ≠ 0 →
          ∀ i T, Args[i]? = some T → ∃ r, parse_json_param T (c.supplied args i) = Except.ok r) := by
  obtain ⟨xs, hlen, hidx, hexec⟩ := execute_resolved c args global_y hshape hsize
  have hlt : ∀ i T, Args[i]? = some T → i < Args.length := by
    intro i T h
    by_contra hge
    rw [List.getElem?_eq_none (Nat.le_of_not_lt hge)] at h
    cases h
  constructor
  · intro i hT hbad
    have hbad2 : ¬ ∃ n, ((arrayValue xs).index (0 + i)).denotes_int32 n := by
      rw [Nat.zero_add, hidx i (hlt i _ hT)]; exact hbad
    rw [hexec]
    simp only [invoke_func_by_json, parse_params_to_tuple_array Args xs global_y hlen,
      impl_error_of_bad Args 0 (arrayValue xs) global_y i hT hbad2]
    rfl
  · intro hcalls i T hT
    rw [hexec] at hcalls
    unfold invoke_func_by_json at hcalls
    rw [parse_params_to_tuple_array Args xs global_y hlen] at hcalls
    cases h : parse_params_to_tuple_impl Args 0 (arrayValue xs) global_y with
    | error e => rw [h] at hcalls; exact absurd rfl hcalls
    | ok t =>
        obtain ⟨r, hr, -⟩ := impl_ok_elem Args 0 (arrayValue xs) global_y t h i T hT
        rw [Nat.zero_add, hidx i (hlt i T hT)] at hr
        exact ⟨r, hr⟩

theorem execute_decode_error_witness :
    test_request.execute (objectValue [("y", intValue 7), ("x", stringValue "abc")]) 123
      = { ret := Except.error (Exn.invalid_argument "Expected integer parameter"),
          global_y := 123, func_calls := 0 } :=
  (execute_decode_error test_request
    (objectValue [("y", intValue 7), ("x", stringValue "abc")]) 123
    (Or.inr ⟨rfl, by decide⟩) rfl).1 0 rfl
    (by simp [json_request_impl.supplied, Json.Value.isArray, Json.Value.get, Json.Value.find,
          test_request, test_request_params, Json.Value.denotes_int32, Json.Value.number?])

/-! ## The shape check -/

/-- A value that is neither an array nor an object has size `0`: `execute`
reaches the shape check only for a callable without parameters, and for every
other callable the count check throws first. -/
theorem execute_scalar {Args : List ParamType} (c : json_request_impl Args)
    (args : Value) (global_y : Int)
    (harr : args.isArray = false) (hobj : args.isObject = false) :
    c.execute args global_y
      = if Args.length = 0 then
          Outcome.thrown
            (Exn.invalid_argument "Parameters must be an array or an object") global_y
        else
          Outcome.thrown (Exn.invalid_argument "Invalid number of parameters") global_y := by
  have hsize : args.size = 0 := by
    cases args with
    | arrayValue xs => simp [Json.Value.isArray] at harr
    | objectValue ms => simp [Json.Value.isObject] at hobj
    | _ => rfl
  by_cases hN : Args.length = 0
  · simp [json_request_impl.execute, hsize, hN, harr, hobj]
  · have hne : ¬ (0 = Args.length) := fun h => hN h.symm
    simp [json_request_impl.execute, hsize, hN, hne]

/-- C5 at the failing inputs: `test_request` called with a JSON string, null, a
boolean or a number throws `invalid_argument("Invalid number of parameters")`,
not "Parameters must be an array or an object". -/
theorem execute_scalar_test_request :
    test_request.execute (stringValue "abc") 123
        = { ret := Except.error (Exn.invalid_argument "Invalid number of parameters"),
            global_y := 123, func_calls := 0 }
      ∧ test_request.execute nullValue 123
        = { ret := Except.error (Exn.invalid_argument "Invalid number of parameters"),
            global_y := 123, func_calls := 0 }
      ∧ test_request.execute (booleanValue true) 123
        = { ret := Except.error (Exn.invalid_argument "Invalid number of parameters"),
            global_y := 123, func_calls := 0 }
      ∧ test_request.execute (intValue 2) 123
        = { ret := Except.error (Exn.invalid_argument "Invalid number of parameters"),
            global_y := 123, func_calls := 0 } :=
  ⟨rfl, rfl, rfl, rfl⟩

/-! ## The example request -/

/-- C6, as stated, fails: with `global_y` at 123, `test_request` called with
the array `[200]` or with the object `{"x": 200}` does not succeed; both have
one element where two parameters are declared, and `execute` throws
`invalid_argument("Invalid number of parameters")`. -/
theorem test_request_one_argument_counterexample :
    (test_request.execute (arrayValue [intValue 200]) global_y_init).ret
        = Except.error (Exn.invalid_argument "Invalid number of parameters")
      ∧ (test_request.execute (objectValue [("x", intValue 200)]) global_y_init).ret
        = Except.error (Exn.invalid_argument "Invalid number of parameters")
      ∧ (∀ v, (test_request.execute (arrayValue [intValue 200]) global_y_init).ret
          ≠ Except.ok v) := by
  refine ⟨rfl, rfl, ?_⟩
  intro v h
  have h2 : (Except.error (Exn.invalid_argument "Invalid number of parameters") :
      Except Exn Value) = Except.ok v := h
  cases h2

/-- C6, amended. With `global_y` at 123, `test_request` called with a
two-element array `[200, j]` or a two-member object `{"x": 200, "y": j}`, where
`j` is any JSON value given in the place of the state parameter, returns the
object `{"result": 2}` (`(200 / 123) * 2 = 2`), the same for both forms; the
wrapped function is called once and `global_y` stays 123. -/
theorem test_request_200 (j : Value) :
    test_request.execute (arrayValue [intValue 200, j]) global_y_init
        = { ret := Except.ok (objectValue [("result", intValue 2)]),
            global_y := 123, func_calls := 1 }
      ∧ test_request.execute (objectValue [("x", intValue 200), ("y", j)]) global_y_init
        = { ret := Except.ok (objectValue [("result", intValue 2)]),
            global_y := 123, func_calls := 1 } :=
  ⟨rfl, rfl⟩

/-! ## Successful invocation -/

/-- C9. For a callable with wrapped function `f` of arity `N` and a JSON array
of length `N` in which every parameter decodes successfully, where `d_i` is the
decode of element `i` with the type of parameter `i` as `std::make_tuple`
stores it, `execute` returns exactly what `f(d_0, ..., d_{N-1})` returns (or
throws what it throws), `f` is called once, and `global_y` is left as `f`
leaves it. -/
theorem execute_array_returns {Args : List ParamType} (c : json_request_impl Args)
    (xs : List Value) (global_y : Int) (d : Tuple Args)
    (hlen : xs.length = Args.length)
    (hdec : ∀ i T, Args[i]? = some T →
      ∃ r, parse_json_param T (xs.getD i nullValue) = Except.ok r
        ∧ r.decay global_y = Tuple.nth d i) :
    c.execute (arrayValue xs) global_y
      = { ret := (c.func d global_y).ret, global_y := (c.func d global_y).global_y,
          func_calls := 1 } := by
  have himpl : parse_params_to_tuple_impl Args 0 (arrayValue xs) global_y = Except.ok d := by
    apply impl_of_elem
    intro i T hT
    simpa [Json.Value.index] using hdec i T hT
  rw [execute_array c xs global_y hlen]
  simp only [invoke_func_by_json, parse_params_to_tuple_array Args xs global_y hlen, himpl]

theorem execute_array_returns_witness :
    test_request.execute (arrayValue [intValue 200, stringValue "ignored"]) 123
      = { ret := (test_request.func (200, 123, ()) 123).ret,
          global_y := (test_request.func (200, 123, ()) 123).global_y, func_calls := 1 } :=
  execute_array_returns test_request [intValue 200, stringValue "ignored"] 123
    (200, 123, ()) rfl (by
      intro i T hT
      match i, hT with
      | 0, hT =>
          simp only [List.getElem?_cons_zero, Option.some.injEq] at hT
          subst hT
          exact ⟨Native.value 200, rfl, rfl⟩
      | 1, hT =>
          simp only [List.getElem?_cons_succ, List.getElem?_cons_zero, Option.some.injEq] at hT
          subst hT
          exact ⟨Native.global_y_ref, rfl, rfl⟩
      | n + 2, hT => simp at hT)

/-! ## The help document -/

section HelpFacts

open json_request_impl Json.Value

theorem assign_new : ∀ (ms : List (String × Value)) (key : String) (v : Value),
    (∀ kv ∈ ms, kv.1 ≠ key) → assign ms key v = ms ++ [(key, v)]
  | [], _, _, _ => rfl
  | (k, w) :: rest, key, v, h => by
      have hk : k ≠ key := h (k, w) (List.mem_cons_self _ _)
      have hrest : ∀ kv ∈ rest, kv.1 ≠ key := fun kv hkv => h kv (List.mem_cons_of_mem _ hkv)
      simp [assign, hk, assign_new rest key v hrest]

theorem assign_last : ∀ (ms : List (String × Value)) (key : String) (w v : Value),
    (∀ kv ∈ ms, kv.1 ≠ key) → assign (ms ++ [(key, w)]) key v = ms ++ [(key, v)]
  | [], _, _, _, _ => by simp [assign]
  | (k, u) :: rest, key, w, v, h => by
      have hk : k ≠ key := h (k, u) (List.mem_cons_self _ _)
      have hrest : ∀ kv ∈ rest, kv.1 ≠ key := fun kv hkv => h kv (List.mem_cons_of_mem _ hkv)
      simp [assign, hk, assign_last rest key w v hrest]

theorem find_last : ∀ (ms : List (String × Value)) (key : String) (w : Value),
    (∀ kv ∈ ms, kv.1 ≠ key) → find (ms ++ [(key, w)]) key = some w
  | [], _, _, _ => by simp [find]
  | (k, u) :: rest, key, w, h => by
      have hk : k ≠ key := h (k, u) (List.mem_cons_self _ _)
      have hrest : ∀ kv ∈ rest, kv.1 ≠ key := fun kv hkv => h kv (List.mem_cons_of_mem _ hkv)
      simp [find, hk, find_last rest key w hrest]

theorem find_of_mem : ∀ (ms : List (String × Value)) (key : String) (v : Value),
    (ms.map Prod.fst).Nodup → (key, v) ∈ ms → find ms key = some v
  | [], _, _, _, h => by simp at h
  | (k, u) :: rest, key, v, hnd, h => by
      rw [List.map_cons, List.nodup_cons] at hnd
      rcases List.mem_cons.mp h with heq | hmem
      · have h1 : k = key := (congrArg Prod.fst heq).symm
        have h2 : u = v := (congrArg Prod.snd heq).symm
        simp [find, h1, h2]
      · have hk : k ≠ key := by
          intro hkk
          apply hnd.1
          rw [hkk]
          exact List.mem_map.mpr ⟨(key, v), hmem, rfl⟩
        simp [find, hk, find_of_mem rest key v hnd.2 hmem]

variable {Args : List ParamType}

theorem describe_param_new (c : json_request_impl Args) (ms : List (String × Value))
    (i : Nat) (h : ∀ kv ∈ ms, kv.1 ≠ c.param_name i) :
    c.describe_param (objectValue ms) i
      = objectValue (ms ++ [(c.param_name i, c.param_entry i)]) := by
  have h' : ∀ kv ∈ ms, kv.1 ≠ (c.params.getD i { name := "", description := "" }).name := h
  simp only [describe_param, param_name, param_entry, Json.Value.set, Json.Value.get,
    assign_new ms _ _ h', find_last ms _ _ h', assign_last ms _ _ _ h', Option.getD_some, assign]
  simp

theorem param_name_ne (c : json_request_impl Args)
    (hnames : (c.params.map (fun p => p.name)).Nodup) (i j : Nat)
    (hi : i < Args.length) (hj : j < Args.length) (hij : i ≠ j) :
    c.param_name i ≠ c.param_name j := by
  have hi2 : i < c.params.length := by rw [c.params_size]; exact hi
  have hj2 : j < c.params.length := by rw [c.params_size]; exact hj
  intro heq
  have hi3 : i < (c.params.map (fun p => p.name)).length := by simpa using hi2
  have hj3 : j < (c.params.map (fun p => p.name)).length := by simpa using hj2
  have h1 : (c.params.map (fun p => p.name))[i] = (c.params.map (fun p => p.name))[j] := by
    simp only [param_name, List.getD_eq_getElem?_getD, List.getElem?_eq_getElem hi2,
      List.getElem?_eq_getElem hj2, Option.getD_some] at heq
    simpa using heq
  exact hij ((List.Nodup.getElem_inj_iff hnames).mp h1)

theorem fold_describe_param (c : json_request_impl Args)
    (hnames : (c.params.map (fun p => p.name)).Nodup) :
    ∀ k, k ≤ Args.length →
      (List.range k).foldl c.describe_param (objectValue [])
        = objectValue ((List.range k).map (fun i => (c.param_name i, c.param_entry i)))
  | 0, _ => rfl
  | k + 1, hk => by
      have ih := fold_describe_param c hnames k (Nat.le_of_succ_le hk)
      rw [List.range_succ, List.foldl_append, ih]
      simp only [List.foldl_cons, List.foldl_nil, List.map_append, List.map_cons, List.map_nil]
      apply describe_param_new
      intro kv hkv
      obtain ⟨j, hj, rfl⟩ := List.mem_map.mp hkv
      have hjk : j < k := List.mem_range.mp hj
      exact param_name_ne c hnames j k (by omega) (by omega) (by omega)

theorem generate_params_description_eq (c : json_request_impl Args)
    (hnames : (c.params.map (fun p => p.name)).Nodup) :
    c.generate_params_description
      = objectValue ((List.range Args.length).map (fun i => (c.param_name i, c.param_entry i))) :=
  fold_describe_param c hnames Args.length (Nat.le_refl _)

theorem help_eq (c : json_request_impl Args)
    (hnames : (c.params.map (fun p => p.name)).Nodup) :
    c.help = c.help_document := by
  simp [help, help_document, generate_params_description_eq c hnames, Json.Value.set, assign]

theorem map_param_name (c : json_request_impl Args) :
    (List.range Args.length).map c.param_name = c.params.map (fun p => p.name) := by
  apply List.ext_getElem
  · simp [c.params_size]
  · intro i h1 h2
    have hi : i < c.params.length := by simpa using h2
    simp [param_name, List.getD_eq_getElem?_getD, List.getElem?_eq_getElem hi]

end HelpFacts

/-- C7, as stated, fails: the callable of arity 2 built by the constructor
without parameter descriptions has the empty name for both parameters, and the
`params` of its help document has one entry, with index 1; so has a callable
built from an array that repeats a name. -/
theorem help_params_counterexample :
    (json_request_impl.ctor "d" null_func).help.get "params"
        = objectValue [("", objectValue [("type_example", stringValue "integer"),
            ("description", stringValue ""), ("index", uintValue 1)])]
      ∧ ((json_request_impl.ctor "d" null_func).help.get "params").size = 1
      ∧ ((json_request_impl.ctor "d" null_func).help.get "params").size
          ≠ [ParamType.int, ParamType.int].length
      ∧ ((json_request_impl.ctor_array "d" null_func
            [{ name := "a", description := "p" }, { name := "a", description := "q" }]
            rfl).help.get "params").size = 1 := by
  refine ⟨rfl, rfl, ?_, rfl⟩
  decide

/-- C7, amended. For a callable of arity `N` whose declared parameter names
are pairwise distinct, `help().params` has exactly `N` entries, its keys are
the declared names, the `index` values of its entries are exactly `0 .. N-1`,
and the entry keyed by the name of the parameter at position `i` has
`index` equal to `i`. -/
theorem help_params_index {Args : List ParamType} (c : json_request_impl Args)
    (hnames : (c.params.map (fun p => p.name)).Nodup) :
    (c.help.get "params").size = Args.length
      ∧ (∃ ms, c.help.get "params" = objectValue ms
          ∧ ms.map Prod.fst = c.params.map (fun p => p.name)
          ∧ ms.map (fun kv => kv.2.get "index") = (List.range Args.length).map uintValue)
      ∧ (∀ i, i < Args.length →
          ((c.help.get "params").get (c.param_name i)).get "index" = uintValue i) := by
  have hp : c.help.get "params"
      = objectValue ((List.range Args.length).map
          (fun i => (c.param_name i, c.param_entry i))) := by
    rw [help_eq c hnames]
    simp [json_request_impl.help_document, Json.Value.get, Json.Value.find]
  have hidx : ∀ i, (c.param_entry i).get "index" = uintValue i := by
    intro i
    simp [json_request_impl.param_entry, Json.Value.get, Json.Value.find]
  have hkeys : ((List.range Args.length).map
      (fun i => (c.param_name i, c.param_entry i))).map Prod.fst
        = c.params.map (fun p => p.name) := by
    rw [List.map_map, ← map_param_name c]
    rfl
  refine ⟨by rw [hp]; simp [Json.Value.size], ⟨_, hp, hkeys, ?_⟩, ?_⟩
  · rw [List.map_map]
    apply List.map_congr_left
    intro i _
    exact hidx i
  · intro i hi
    rw [hp]
    have hmem : (c.param_name i, c.param_entry i)
        ∈ (List.range Args.length).map (fun i => (c.param_name i, c.param_entry i)) :=
      List.mem_map.mpr ⟨i, List.mem_range.mpr hi, rfl⟩
    have hnd : (((List.range Args.length).map
        (fun i => (c.param_name i, c.param_entry i))).map Prod.fst).Nodup := by
      rw [hkeys]; exact hnames
    simp only [Json.Value.get, find_of_mem _ _ _ hnd hmem, Option.getD_some]
    exact hidx i

theorem help_params_index_witness :
    (test_request.help.get "params").size = 2
      ∧ (∃ ms, test_request.help.get "params" = objectValue ms
          ∧ ms.map Prod.fst = test_request.params.map (fun p => p.name)
          ∧ ms.map (fun kv => kv.2.get "index") = (List.range 2).map uintValue)
      ∧ (∀ i, i < 2 →
          ((test_request.help.get "params").get (test_request.param_name i)).get "index"
            = uintValue i) :=
  help_params_index test_request (by decide)

/-- C8. For a callable whose declared parameter names are pairwise distinct,
`help()` is the document `{"description": <description>, "params": P}` where
`P` maps each declared name `n_i` to exactly `{"type_example":
describe(type_i), "description": <description_i>, "index": i}`, with
`describe(int) = "integer"` and `describe(int&) = "integer reference"`; for
`test_request` this is the document with description "Test request" and the
two entries for `x` and `y`. -/
theorem help_spec {Args : List ParamType} (c : json_request_impl Args)
    (hnames : (c.params.map (fun p => p.name)).Nodup) :
    c.help = c.help_document
      ∧ get_param_example ParamType.int = "integer"
      ∧ get_param_example ParamType.int_ref = "integer reference"
      ∧ test_request.help
          = objectValue
              [ ("description", stringValue "Test request"),
                ("params", objectValue
                  [ ("x", objectValue
                      [ ("type_example", stringValue "integer"),
                        ("description", stringValue "First integer parameter"),
                        ("index", uintValue 0) ]),
                    ("y", objectValue
                      [ ("type_example", stringValue "integer reference"),
                        ("description", stringValue "Second integer parameter"),
                        ("index", uintValue 1) ]) ]) ] :=
  ⟨help_eq c hnames, rfl, rfl, rfl⟩

theorem help_spec_witness :
    (json_request_impl.ctor_array "d" null_func
        [{ name := "a", description := "p" }, { name := "b", description := "q" }] rfl).help
      = objectValue
          [ ("description", stringValue "d"),
            ("params", objectValue
              [ ("a", objectValue
                  [ ("type_example", stringValue "integer"),
                    ("description", stringValue "p"), ("index", uintValue 0) ]),
                ("b", objectValue
                  [ ("type_example", stringValue "integer"),
                    ("description", stringValue "q"), ("index", uintValue 1) ]) ]) ] :=
  (help_spec (json_request_impl.ctor_array "d" null_func
    [{ name := "a", description := "p" }, { name := "b", description := "q" }] rfl)
    (by decide)).1

/-! ## State parameters -/

section StateFacts

theorem impl_congr : ∀ (Args : List ParamType) (Is : Nat) (p q : Value) (g : Int),
    (∀ (i : Nat) (T : ParamType), Args[i]? = some T →
      parse_json_param T (p.index (Is + i)) = parse_json_param T (q.index (Is + i))) →
    parse_params_to_tuple_impl Args Is p g = parse_params_to_tuple_impl Args Is q g
  | [], _, _, _, _ => by intro _; rfl
  | T0 :: Args, Is, p, q, g => by
      intro h
      have h0 : parse_json_param T0 (p.index Is) = parse_json_param T0 (q.index Is) := by
        simpa using h 0 T0 (by simp)
      have hrest : parse_params_to_tuple_impl Args (Is + 1) p g
          = parse_params_to_tuple_impl Args (Is + 1) q g := by
        apply impl_congr Args (Is + 1) p q g
        intro i T hT
        have := h (i + 1) T (by simpa using hT)
        have e : Is + 1 + i = Is + (i + 1) := by omega
        rw [e]; exact this
      unfold parse_params_to_tuple_impl
      rw [h0, hrest]

theorem parse_json_param_int_ref (v w : Value) :
    parse_json_param ParamType.int_ref v = parse_json_param ParamType.int_ref w := rfl

theorem getElem?_lt {Args : List ParamType} {i : Nat} {T : ParamType}
    (h : Args[i]? = some T) : i < Args.length := by
  by_contra hge
  rw [List.getElem?_eq_none (Nat.le_of_not_lt hge)] at h
  cases h

theorem invoke_congr {Args : List ParamType} (c : json_request_impl Args)
    (xs ys : List Value) (g : Int)
    (hx : xs.length = Args.length) (hy : ys.length = Args.length)
    (h : ∀ i, Args[i]? = some ParamType.int →
      (arrayValue xs).index i = (arrayValue ys).index i) :
    invoke_func_by_json (arrayValue xs) c.func g
      = invoke_func_by_json (arrayValue ys) c.func g := by
  have himpl : parse_params_to_tuple_impl Args 0 (arrayValue xs) g
      = parse_params_to_tuple_impl Args 0 (arrayValue ys) g := by
    apply impl_congr
    intro i T hT
    cases T with
    | int => rw [Nat.zero_add, h i hT]
    | int_ref => rfl
  simp only [invoke_func_by_json, parse_params_to_tuple_array Args xs g hx,
    parse_params_to_tuple_array Args ys g hy, himpl]

end StateFacts

/-- C11. The JSON value supplied for a state (`int &`) parameter is ignored:
decoding yields the reference to `global_y` for every JSON value, and the
tuple receives the current value of `global_y`. So for every callable and any
two argument bundles of valid size (two arrays, or two objects with the same
declared names present) that agree on the value given to every plain
parameter, and so differ only in what is given at state parameters,
`execute` has the same outcome. -/
theorem state_parameter_ignored {Args : List ParamType} (c : json_request_impl Args)
    (a b : Value) (global_y : Int)
    (hkind : (a.isArray = true ∧ b.isArray = true)
      ∨ (a.isObject = true ∧ b.isObject = true
          ∧ ∀ p ∈ c.params, a.isMember p.name = b.isMember p.name))
    (hsa : a.size = Args.length) (hsb : b.size = Args.length)
    (hplain : ∀ i, Args[i]? = some ParamType.int → c.supplied a i = c.supplied b i) :
    (∀ v : Value, parse_json_param ParamType.int_ref v = Except.ok Native.global_y_ref)
      ∧ Native.decay global_y Native.global_y_ref = global_y
      ∧ c.execute a global_y = c.execute b global_y := by
  refine ⟨fun _ => rfl, rfl, ?_⟩
  rcases hkind with ⟨ha, hb⟩ | ⟨ha, hb, hmem⟩
  · obtain ⟨xs, hxs, hxi, hxe⟩ := execute_resolved c a global_y (Or.inl ha) hsa
    obtain ⟨ys, hys, hyi, hye⟩ := execute_resolved c b global_y (Or.inl hb) hsb
    rw [hxe, hye]
    apply invoke_congr c xs ys global_y hxs hys
    intro i hT
    rw [hxi i (getElem?_lt hT), hyi i (getElem?_lt hT), hplain i hT]
  · by_cases hmiss : ∃ p ∈ c.params, a.isMember p.name = false
    · obtain ⟨pre, p, post, hsplit, hpre, hp⟩ := first_absent a c.params hmiss
      have hpmem : p ∈ c.params := by rw [hsplit]; simp
      have hpre_mem : ∀ q ∈ pre, q ∈ c.params := by
        intro q hq; rw [hsplit]; exact List.mem_append_left _ hq
      have hpb : b.isMember p.name = false := by rw [← hmem p hpmem]; exact hp
      have hpreb : ∀ q ∈ pre, b.isMember q.name = true := by
        intro q hq; rw [← hmem q (hpre_mem q hq)]; exact hpre q hq
      cases a with
      | objectValue ms =>
          cases b with
          | objectValue ns =>
              rw [execute_object c ms global_y hsa, execute_object c ns global_y hsb, hsplit,
                collect_array_params_missing (objectValue ms) p post hp pre _ hpre,
                collect_array_params_missing (objectValue ns) p post hpb pre _ hpreb]
          | _ => simp [Json.Value.isObject] at hb
      | _ => simp [Json.Value.isObject] at ha
    · have halla : ∀ p ∈ c.params, a.isMember p.name = true := by
        intro p hp
        cases h : a.isMember p.name with
        | true => rfl
        | false => exact absurd ⟨p, hp, h⟩ hmiss
      have hallb : ∀ p ∈ c.params, b.isMember p.name = true := by
        intro p hp; rw [← hmem p hp]; exact halla p hp
      obtain ⟨xs, hxs, hxi, hxe⟩ := execute_resolved c a global_y (Or.inr ⟨ha, halla⟩) hsa
      obtain ⟨ys, hys, hyi, hye⟩ := execute_resolved c b global_y (Or.inr ⟨hb, hallb⟩) hsb
      rw [hxe, hye]
      apply invoke_congr c xs ys global_y hxs hys
      intro i hT
      rw [hxi i (getElem?_lt hT), hyi i (getElem?_lt hT), hplain i hT]

theorem state_parameter_ignored_witness :
    test_request.execute (objectValue [("x", intValue 200), ("y", nullValue)]) 123
      = test_request.execute
          (objectValue [("x", intValue 200), ("y", stringValue "anything")]) 123 :=
  (state_parameter_ignored test_request
    (objectValue [("x", intValue 200), ("y", nullValue)])
    (objectValue [("x", intValue 200), ("y", stringValue "anything")]) 123
    (Or.inr ⟨rfl, rfl, by decide⟩) rfl rfl (by
      intro i hT
      match i, hT with
      | 0, _ => rfl
      | 1, hT => simp at hT
      | n + 2, hT => simp at hT)).2.2

/-- C12 at the failing input: with `global_y` at 123, `assign_request` is
called with `[null]`. The wrapped function assigns 7 to its `int &` parameter,
yet after the successful `execute` the value of `global_y` is still 123, and a
following invocation reads 123 again, not 7: the parameter is bound to the
copy held in the argument tuple. -/
theorem assign_request_keeps_global_y :
    (assign_request.func (123, ()) 123).args = ((7 : Int), ())
      ∧ assign_request.execute (arrayValue [nullValue]) 123
          = { ret := Except.ok (intValue 123), global_y := 123, func_calls := 1 }
      ∧ (assign_request.execute (arrayValue [nullValue]) 123).global_y ≠ 7
      ∧ assign_request.execute (arrayValue [nullValue])
            (assign_request.execute (arrayValue [nullValue]) 123).global_y
          = { ret := Except.ok (intValue 123), global_y := 123, func_calls := 1 } := by
  refine ⟨rfl, rfl, ?_, rfl⟩
  decide

/-! ## Construction -/

/-- C13. Constructing a callable from a description, a wrapped function of
arity `N` and a list of parameter descriptions throws
`invalid_argument("Invalid number of parameter descriptions")` if and only if
the length of the list differs from `N`; when the length is `N` the callable
is built and stores the description, the function, and the parameter
descriptions in the given order. -/
theorem ctor_list_spec {Args : List ParamType} (desc : String) (f : Func Args)
    (param_desc_list : List param_description) :
    ((∃ e, json_request_impl.ctor_list desc f param_desc_list = Except.error e)
        ↔ param_desc_list.length ≠ Args.length)
      ∧ (param_desc_list.length ≠ Args.length →
          json_request_impl.ctor_list desc f param_desc_list
            = Except.error (Exn.invalid_argument "Invalid number of parameter descriptions"))
      ∧ (param_desc_list.length = Args.length →
          ∃ c, json_request_impl.ctor_list desc f param_desc_list = Except.ok c
            ∧ c.params = param_desc_list ∧ c.description = desc ∧ c.func = f) := by
  by_cases h : param_desc_list.length ≠ Args.length
  · have herr : json_request_impl.ctor_list desc f param_desc_list
        = Except.error (Exn.invalid_argument "Invalid number of parameter descriptions") := by
      simp [json_request_impl.ctor_list, h, throw, throwThe, MonadExceptOf.throw]
    exact ⟨⟨fun _ => h, fun _ => ⟨_, herr⟩⟩, fun _ => herr, fun heq => absurd heq h⟩
  · have heq : param_desc_list.length = Args.length := not_not.mp h
    have hok : json_request_impl.ctor_list desc f param_desc_list
        = Except.ok { description := desc, func := f, params := param_desc_list,
                      params_size := heq } := by
      simp [json_request_impl.ctor_list, heq, pure, Except.pure]
    refine ⟨⟨fun ⟨e, he⟩ => ?_, fun hne => absurd hne h⟩, fun hne => absurd hne h,
      fun _ => ⟨_, hok, rfl, rfl, rfl⟩⟩
    rw [hok] at he
    cases he

theorem ctor_list_spec_witness :
    (json_request_impl.ctor_list "Test request" test_request_base_func
        [{ name := "x", description := "First integer parameter" }]
      = Except.error (Exn.invalid_argument "Invalid number of parameter descriptions"))
      ∧ (∃ c, json_request_impl.ctor_list "Test request" test_request_base_func
            test_request_params = Except.ok c
          ∧ c.params = test_request_params ∧ c.description = "Test request"
          ∧ c.func = test_request_base_func) :=
  ⟨(ctor_list_spec "Test request" test_request_base_func
      [{ name := "x", description := "First integer parameter" }]).2.1 (by decide),
    (ctor_list_spec "Test request" test_request_base_func test_request_params).2.2 rfl⟩

/-! ## The example request, for every argument -/

section ExampleFacts

theorem tdiv_123_bounds (x : Int) (h1 : -2147483648 ≤ x) (h2 : x ≤ 2147483647) :
    -17459217 ≤ Int.tdiv x 123 ∧ Int.tdiv x 123 ≤ 17459216 := by
  rcases le_or_lt 0 x with h | h
  · rw [Int.tdiv_eq_ediv h (by norm_num)]; omega
  · have hneg : Int.tdiv x 123 = -((-x) / 123) := by
      have h3 := Int.neg_tdiv (-x) 123
      rw [neg_neg] at h3
      rw [h3, Int.tdiv_eq_ediv (by omega) (by norm_num)]
    rw [hneg]; omega

theorem test_request_base_func_123 (x : Int) (h1 : -2147483648 ≤ x) (h2 : x ≤ 2147483647)
    (global_y : Int) :
    test_request_base_func (x, 123, ()) global_y
      = { ret := Except.ok (objectValue [("result", intValue (2 * Int.tdiv x 123))]),
          args := (x, 123, ()), global_y := global_y } := by
  obtain ⟨hq1, hq2⟩ := tdiv_123_bounds x h1 h2
  have c1 : ¬ (Int.tdiv x 123 < Json.minInt ∨ Json.maxInt < Int.tdiv x 123) := by
    simp only [Json.minInt, Json.maxInt]; omega
  have c2 : ¬ (Int.tdiv x 123 * 2 < Json.minInt ∨ Json.maxInt < Int.tdiv x 123 * 2) := by
    simp only [Json.minInt, Json.maxInt]; omega
  have c3 : Int.tdiv x 123 * 2 = 2 * Int.tdiv x 123 := Int.mul_comm _ _
  have c0 : ¬ ((123 : Int) = 0) := by decide
  simp only [test_request_base_func]
  rw [if_neg c0, if_neg c1, if_neg c2, c3]
  rfl

theorem test_request_array (vx j : Value) (x g : Int) (hx : vx.denotes_int32 x) :
    test_request.execute (arrayValue [vx, j]) g
      = { ret := (test_request_base_func (x, g, ()) g).ret,
          global_y := (test_request_base_func (x, g, ()) g).global_y, func_calls := 1 } := by
  have hp := parse_int_of_denotes vx x hx
  have hr : parse_json_param ParamType.int_ref j = Except.ok Native.global_y_ref := rfl
  simp [json_request_impl.execute, Json.Value.size, Json.Value.isArray, invoke_func_by_json,
    parse_params_to_tuple, parse_params_to_tuple_impl, Json.Value.index,
    hp, hr, Native.decay, test_request]

theorem test_request_object (vx j : Value) (x g : Int) (hx : vx.denotes_int32 x) :
    test_request.execute (objectValue [("x", vx), ("y", j)]) g
      = { ret := (test_request_base_func (x, g, ()) g).ret,
          global_y := (test_request_base_func (x, g, ()) g).global_y, func_calls := 1 } := by
  have hp := parse_int_of_denotes vx x hx
  have hr : parse_json_param ParamType.int_ref j = Except.ok Native.global_y_ref := rfl
  simp [json_request_impl.execute, Json.Value.size, Json.Value.isArray, Json.Value.isObject,
    json_request_impl.collect_array_params, Json.Value.isMember, Json.Value.find,
    Json.Value.get, Json.Value.append, invoke_func_by_json,
    parse_params_to_tuple, parse_params_to_tuple_impl, Json.Value.index,
    hp, hr, Native.decay, test_request, test_request_params]

end ExampleFacts

/-- C14. With `global_y` at 123, for every 32-bit integer `x` (given as any
JSON number that denotes it) and every JSON value `j`, `test_request` invoked
with the array `[x, j]` or with the object `{"x": x, "y": j}` returns exactly
the object `{"result": 2 * q}`, where `q` is `x` divided by 123 with truncation
toward zero; `x = 200` gives `{"result": 2}` (the call `main` makes, with
`{"x": 200, "y": null}`), and `x = -200` gives `{"result": -2}`. -/
theorem test_request_result (vx j : Value) (x : Int) (hx : vx.denotes_int32 x) :
    test_request.execute (arrayValue [vx, j]) global_y_init
        = { ret := Except.ok (objectValue [("result", intValue (2 * Int.tdiv x 123))]),
            global_y := 123, func_calls := 1 }
      ∧ test_request.execute (objectValue [("x", vx), ("y", j)]) global_y_init
        = { ret := Except.ok (objectValue [("result", intValue (2 * Int.tdiv x 123))]),
            global_y := 123, func_calls := 1 }
      ∧ test_request.execute (objectValue [("x", intValue 200), ("y", nullValue)]) global_y_init
        = { ret := Except.ok (objectValue [("result", intValue 2)]),
            global_y := 123, func_calls := 1 }
      ∧ test_request.execute (arrayValue [intValue (-200), j]) global_y_init
        = { ret := Except.ok (objectValue [("result", intValue (-2))]),
            global_y := 123, func_calls := 1 } := by
  have hb := test_request_base_func_123 x hx.2.1 hx.2.2 123
  refine ⟨?_, ?_, rfl, rfl⟩
  · rw [global_y_init, test_request_array vx j x 123 hx, hb]
  · rw [global_y_init, test_request_object vx j x 123 hx, hb]

theorem test_request_result_witness :
    test_request.execute (arrayValue [uintValue 1000, booleanValue true]) global_y_init
      = { ret := Except.ok (objectValue [("result", intValue (2 * Int.tdiv 1000 123))]),
          global_y := 123, func_calls := 1 } :=
  (test_request_result (uintValue 1000) (booleanValue true) 1000
    ⟨by simp [Json.Value.number?], by norm_num, by norm_num⟩).1

/-! ## Missing parameters are reported before anything is decoded -/

/-- C15. For a callable of arity `N` and a JSON object with exactly `N`
members that lacks some declared parameter name, the declared names split as
`pre ++ p :: post` with every name of `pre` present and `p` absent (`p` is the
first absent name in declaration order), and `execute` throws
`invalid_argument("Missing parameter: " + p.name)`, whatever values the
members that are present hold (nothing is decoded, so a value of the wrong
kind does not change the error); the wrapped function is not called and
`global_y` is untouched. -/
theorem execute_missing_before_decode {Args : List ParamType}
    (c : json_request_impl Args) (o : Value) (global_y : Int)
    (hobj : o.isObject = true) (hsize : o.size = Args.length)
    (hlack : ∃ p ∈ c.params, o.isMember p.name = false) :
    ∃ pre p post, c.params = pre ++ p :: post
      ∧ (∀ q ∈ pre, o.isMember q.name = true)
      ∧ o.isMember p.name = false
      ∧ c.execute o global_y
          = { ret := Except.error (Exn.invalid_argument ("Missing parameter: " ++ p.name)),
              global_y := global_y, func_calls := 0 } := by
  obtain ⟨pre, p, post, hsplit, hpre, hp⟩ := first_absent o c.params hlack
  refine ⟨pre, p, post, hsplit, hpre, hp, ?_⟩
  cases o with
  | objectValue ms =>
      rw [execute_object c ms global_y hsize, hsplit,
        collect_array_params_missing (objectValue ms) p post hp pre _ hpre]
      rfl
  | _ => simp [Json.Value.isObject] at hobj

theorem execute_missing_before_decode_witness :
    ∃ pre p post, test_request.params = pre ++ p :: post
      ∧ (∀ q ∈ pre,
          (objectValue [("x", stringValue "abc"), ("z", intValue 0)]).isMember q.name = true)
      ∧ (objectValue [("x", stringValue "abc"), ("z", intValue 0)]).isMember p.name = false
      ∧ test_request.execute (objectValue [("x", stringValue "abc"), ("z", intValue 0)]) 123
          = { ret := Except.error (Exn.invalid_argument ("Missing parameter: " ++ p.name)),
              global_y := 123, func_calls := 0 } :=
  execute_missing_before_decode test_request
    (objectValue [("x", stringValue "abc"), ("z", intValue 0)]) 123 rfl rfl
    ⟨{ name := "y", description := "Second integer parameter" }, by decide, rfl⟩

/-! ## The failures of `execute` -/

section FailureFacts

theorem parse_params_to_tuple_array_cases (Args : List ParamType) (xs : List Value) (g : Int)
    (h : xs.length = Args.length) :
    parse_params_to_tuple Args (arrayValue xs) g = Except.error decode_error
      ∨ ∃ d, parse_params_to_tuple Args (arrayValue xs) g = Except.ok d := by
  rw [parse_params_to_tuple_array Args xs g h]
  cases hres : parse_params_to_tuple_impl Args 0 (arrayValue xs) g with
  | error e => left; rw [impl_error Args 0 (arrayValue xs) g e hres]
  | ok d => right; exact ⟨d, rfl⟩

theorem execute_cases {Args : List ParamType} (c : json_request_impl Args)
    (args : Value) (g : Int) :
    c.execute args g
        = Outcome.thrown (Exn.invalid_argument "Invalid number of parameters") g
      ∨ c.execute args g
        = Outcome.thrown (Exn.invalid_argument "Parameters must be an array or an object") g
      ∨ (∃ p ∈ c.params, c.execute args g
          = Outcome.thrown (Exn.invalid_argument ("Missing parameter: " ++ p.name)) g)
      ∨ (∃ xs : List Value, xs.length = Args.length
          ∧ (∀ i, i < Args.length → (arrayValue xs).index i = c.supplied args i)
          ∧ c.execute args g = invoke_func_by_json (arrayValue xs) c.func g) := by
  by_cases hsize : args.size = Args.length
  · by_cases harr : args.isArray = true
    · right; right; right
      exact execute_resolved c args g (Or.inl harr) hsize
    · by_cases hobj : args.isObject = true
      · by_cases hmiss : ∃ p ∈ c.params, args.isMember p.name = false
        · right; right; left
          obtain ⟨pre, p, post, hsplit, hpre, hp⟩ := first_absent args c.params hmiss
          refine ⟨p, by rw [hsplit]; simp, ?_⟩
          cases args with
          | objectValue ms =>
              rw [execute_object c ms g hsize, hsplit,
                collect_array_params_missing (objectValue ms) p post hp pre _ hpre]
          | _ => simp [Json.Value.isObject] at hobj
        · right; right; right
          have hall : ∀ p ∈ c.params, args.isMember p.name = true := by
            intro p hp
            cases h : args.isMember p.name with
            | true => rfl
            | false => exact absurd ⟨p, hp, h⟩ hmiss
          exact execute_resolved c args g (Or.inr ⟨hobj, hall⟩) hsize
      · have h := execute_scalar c args g (by simpa using harr) (by simpa using hobj)
        by_cases hN : Args.length = 0
        · right; left; rw [h, if_pos hN]
        · left; rw [h, if_neg hN]
  · left
    exact execute_size_ne c args g hsize

theorem execute_outcome {Args : List ParamType} (c : json_request_impl Args)
    (args : Value) (g : Int) :
    (∃ e, dispatcher_error e ∧ c.execute args g = Outcome.thrown e g)
      ∨ (∃ (xs : List Value) (d : Tuple Args), xs.length = Args.length
          ∧ parse_params_to_tuple_impl Args 0 (arrayValue xs) g = Except.ok d
          ∧ c.execute args g
              = { ret := (c.func d g).ret, global_y := (c.func d g).global_y,
                  func_calls := 1 }) := by
  rcases execute_cases c args g with h | h | ⟨p, _, h⟩ | ⟨xs, hlen, _, h⟩
  · exact Or.inl ⟨_, Or.inl rfl, h⟩
  · exact Or.inl ⟨_, Or.inr (Or.inl rfl), h⟩
  · exact Or.inl ⟨_, Or.inr (Or.inr (Or.inl ⟨p.name, rfl⟩)), h⟩
  · cases hres : parse_params_to_tuple_impl Args 0 (arrayValue xs) g with
    | error e =>
        left
        refine ⟨decode_error, Or.inr (Or.inr (Or.inr rfl)), ?_⟩
        rw [h]
        simp only [invoke_func_by_json, parse_params_to_tuple_array Args xs g hlen, hres,
          impl_error Args 0 (arrayValue xs) g e hres]
    | ok d =>
        right
        refine ⟨xs, d, hlen, hres, ?_⟩
        rw [h]
        simp only [invoke_func_by_json, parse_params_to_tuple_array Args xs g hlen, hres]

end FailureFacts

/-- C16, as stated, fails: `throwing_request`, whose wrapped function throws
`std::runtime_error("boom")`, called with the array `[5]` fails with that
exception, which is none of the count, shape, missing-parameter and
integer-decode errors. -/
theorem execute_failure_counterexample :
    throwing_request.execute (arrayValue [intValue 5]) 123
        = { ret := Except.error (Exn.runtime_error "boom"), global_y := 123, func_calls := 1 }
      ∧ ¬ dispatcher_error (Exn.runtime_error "boom") := by
  refine ⟨rfl, ?_⟩
  rintro (h | h | ⟨_, h⟩ | h) <;> cases h

/-- C16, amended. The inner checks of `parse_params_to_tuple` are unreachable
through `execute`: for every callable and every JSON input, `execute` either
throws the count, the shape or a missing-parameter error, or passes down an
array of exactly `N` elements, on which `parse_params_to_tuple` throws neither
"Expected JSON array for function parameters" nor "Not enough elements in JSON
array to match function signature". Every failure of `execute` that arises
before the wrapped function is called is one of the count, shape,
missing-parameter and integer-decode errors; once the wrapped function is
called, the outcome of `execute` is what that function returns or throws. -/
theorem execute_failures {Args : List ParamType} (c : json_request_impl Args)
    (args : Value) (global_y : Int) :
    (c.execute args global_y
          = Outcome.thrown (Exn.invalid_argument "Invalid number of parameters") global_y
        ∨ c.execute args global_y
          = Outcome.thrown (Exn.invalid_argument "Parameters must be an array or an object")
              global_y
        ∨ (∃ p ∈ c.params, c.execute args global_y
            = Outcome.thrown (Exn.invalid_argument ("Missing parameter: " ++ p.name)) global_y)
        ∨ (∃ xs : List Value, xs.length = Args.length
            ∧ c.execute args global_y = invoke_func_by_json (arrayValue xs) c.func global_y
            ∧ parse_params_to_tuple Args (arrayValue xs) global_y
                ≠ Except.error (Exn.runtime_error "Expected JSON array for function parameters")
            ∧ parse_params_to_tuple Args (arrayValue xs) global_y
                ≠ Except.error (Exn.runtime_error
                    "Not enough elements in JSON array to match function signature")))
      ∧ (∀ e, (c.execute args global_y).ret = Except.error e →
          (c.execute args global_y).func_calls = 0 → dispatcher_error e)
      ∧ ((c.execute args global_y).func_calls ≠ 0 →
          ∃ d, c.execute args global_y
            = { ret := (c.func d global_y).ret, global_y := (c.func d global_y).global_y,
                func_calls := 1 }) := by
  refine ⟨?_, ?_, ?_⟩
  · rcases execute_cases c args global_y with h | h | h | ⟨xs, hlen, _, h⟩
    · exact Or.inl h
    · exact Or.inr (Or.inl h)
    · exact Or.inr (Or.inr (Or.inl h))
    · refine Or.inr (Or.inr (Or.inr ⟨xs, hlen, h, ?_, ?_⟩))
      · rcases parse_params_to_tuple_array_cases Args xs global_y hlen with h1 | ⟨d, h1⟩
        · rw [h1]; intro h2; cases Except.error.inj h2
        · rw [h1]; intro h2; cases h2
      · rcases parse_params_to_tuple_array_cases Args xs global_y hlen with h1 | ⟨d, h1⟩
        · rw [h1]; intro h2; cases Except.error.inj h2
        · rw [h1]; intro h2; cases h2
  · intro e he hcalls
    rcases execute_outcome c args global_y with ⟨e0, hd, h⟩ | ⟨xs, d, _, _, h⟩
    · rw [h] at he
      have : e0 = e := Except.error.inj he
      exact this ▸ hd
    · rw [h] at hcalls
      cases hcalls
  · intro hcalls
    rcases execute_outcome c args global_y with ⟨e0, _, h⟩ | ⟨xs, d, _, _, h⟩
    · rw [h] at hcalls
      exact absurd rfl hcalls
    · exact ⟨d, h⟩

theorem execute_failures_witness :
    dispatcher_error (Exn.invalid_argument "Missing parameter: y") :=
  (execute_failures test_request (objectValue [("x", intValue 200), ("z", nullValue)]) 123).2.1
    (Exn.invalid_argument "Missing parameter: y") rfl rfl

/-! ## The state cell under sequences of calls -/

section InvariantFacts

theorem parse_int_ok (v : Value) (r : Native)
    (h : parse_json_param ParamType.int v = Except.ok r) :
    ∃ n, r = Native.value n ∧ v.denotes_int32 n := by
  by_cases hd : ∃ n, v.denotes_int32 n
  · obtain ⟨n, hn⟩ := hd
    rw [parse_int_of_denotes v n hn] at h
    exact ⟨n, (Except.ok.inj h).symm, hn⟩
  · rw [parse_int_of_not_denotes v hd] at h
    cases h

theorem test_request_outcome (args : Value) (g : Int) :
    (∃ e, dispatcher_error e ∧ test_request.execute args g = Outcome.thrown e g)
      ∨ (∃ x : Int, -2147483648 ≤ x ∧ x ≤ 2147483647
          ∧ test_request.execute args g
              = { ret := (test_request_base_func (x, g, ()) g).ret, global_y := g,
                  func_calls := 1 }) := by
  rcases execute_outcome test_request args g with h | ⟨xs, d, _, hd, h⟩
  · exact Or.inl h
  · right
    obtain ⟨x, y, u⟩ := d
    obtain ⟨r0, hr0, hx⟩ := impl_ok_elem _ 0 (arrayValue xs) g (x, y, u) hd 0 ParamType.int rfl
    obtain ⟨r1, hr1, hy⟩ :=
      impl_ok_elem _ 0 (arrayValue xs) g (x, y, u) hd 1 ParamType.int_ref rfl
    obtain ⟨n, rfl, hn⟩ := parse_int_ok _ r0 hr0
    have hr1' : r1 = Native.global_y_ref := (Except.ok.inj hr1).symm
    subst hr1'
    have hxn : n = x := hx
    have hyg : g = y := hy
    subst hxn
    subst hyg
    exact ⟨n, hn.2.1, hn.2.2, h⟩

theorem test_request_keeps_global_y (args : Value) (g : Int) :
    (test_request.execute args g).global_y = g := by
  rcases test_request_outcome args g with ⟨e, _, h⟩ | ⟨x, _, _, h⟩
  · rw [h]; rfl
  · rw [h]

theorem run_calls_keeps_global_y : ∀ (calls : List Call) (g : Int), run_calls calls g = g
  | [], _ => rfl
  | call :: calls, g => by
      have hstep : Call.step g call = g := by
        cases call with
        | execute args => exact test_request_keeps_global_y args g
        | help => rfl
      have ih := run_calls_keeps_global_y calls g
      simp only [run_calls, List.foldl_cons, hstep] at ih ⊢
      exact ih

end InvariantFacts

/-- C17. On `test_request`, `global_y` keeps its initial value 123 in every
state reached by any sequence of `execute` and `help` calls, successful or
failing. So whenever `execute` calls the wrapped function in such a state, it
is called on `(x, 123)` for a 32-bit `x`: the divisor of `x / y` is 123, never
zero, and no call of `execute` runs into the undefined division by zero (nor
into a signed overflow). -/
theorem global_y_invariant (calls : List Call) :
    run_calls calls global_y_init = 123
      ∧ (∀ args, (test_request.execute args (run_calls calls global_y_init)).global_y = 123)
      ∧ (∀ args, (test_request.execute args (run_calls calls global_y_init)).func_calls ≠ 0 →
          ∃ x : Int, -2147483648 ≤ x ∧ x ≤ 2147483647
            ∧ test_request.execute args (run_calls calls global_y_init)
                = { ret := (test_request_base_func (x, 123, ()) 123).ret, global_y := 123,
                    func_calls := 1 }
            ∧ (test_request_base_func (x, 123, ()) 123).ret
                = Except.ok (objectValue [("result", intValue (2 * Int.tdiv x 123))]))
      ∧ (∀ args, (test_request.execute args (run_calls calls global_y_init)).ret
          ≠ Except.error Exn.undefined_behaviour) := by
  have hrun : run_calls calls global_y_init = 123 :=
    run_calls_keeps_global_y calls global_y_init
  rw [hrun]
  refine ⟨rfl, fun args => test_request_keeps_global_y args 123, ?_, ?_⟩
  · intro args hcalls
    rcases test_request_outcome args 123 with ⟨e, _, h⟩ | ⟨x, h1, h2, h⟩
    · rw [h] at hcalls; exact absurd rfl hcalls
    · exact ⟨x, h1, h2, h, by rw [test_request_base_func_123 x h1 h2 123]⟩
  · intro args
    rcases test_request_outcome args 123 with ⟨e, hd, h⟩ | ⟨x, h1, h2, h⟩
    · rw [h]
      intro habs
      have he : e = Exn.undefined_behaviour := Except.error.inj habs
      subst he
      rcases hd with h | h | ⟨_, h⟩ | h <;> cases h
    · rw [h, test_request_base_func_123 x h1 h2 123]
      intro habs
      cases habs
